import Mathlib

/-!
Shallow embedding of `CBETA_Sorting_Data/analyze_buddhist_metadata.py`:
the keyword tables, the three classifiers, canon-code derivation, and the
aggregation loop of `analyze_buddhist_metadata`, together with theorems
about their behaviour.

Python strings are modelled as Lean `String`; Python substring tests
(`needle in haystack`) as `strContains`; `str.lower()` as
`String.map Char.toLower` (the keywords only use ASCII letters and CJK
characters, on which the two agree).  Python dicts with fixed literal
entries are modelled as association lists in insertion order, which is the
iteration order Python guarantees; the dynasty/geographic keyword *sets*
are modelled as lists, which is harmless because only "some member is a
substring" is ever asked of them.
-/

/-- `isPrefixChars n h` is true when the char list `n` is a prefix of `h`. -/
def isPrefixChars : List Char → List Char → Bool
  | [], _ => true
  | _ :: _, [] => false
  | a :: as, b :: bs => a == b && isPrefixChars as bs

/-- `containsSub hay needle`: `needle` occurs contiguously inside `hay`
(the semantics of Python's `needle in hay` on strings). -/
def containsSub (hay needle : List Char) : Bool :=
  match hay with
  | [] => needle.isEmpty
  | _ :: t => isPrefixChars needle hay || containsSub t needle

/-- Python `needle in hay` for strings. -/
def strContains (hay needle : String) : Bool :=
  containsSub hay.toList needle.toList

/-- Python `s.lower()` (ASCII letters; identity on CJK). -/
def lowerStr (s : String) : String :=
  String.mk (s.toList.map Char.toLower)

/-- `TRADITION_CLASSIFICATIONS` from the source, entries in the
source's insertion order. -/
def TRADITION_CLASSIFICATIONS : List (String × List String) :=
  [("Chan/Zen", ["禪", "禅", "chan", "zen", "曹洞", "臨濟", "雲門", "潙仰", "法眼"]),
   ("Pure Land", ["淨土", "净土", "净土宗", "淨土宗", "蓮社", "念佛法門", "阿彌陀"]),
   ("Tiantai", ["天台", "法華", "止觀", "智者", "天台宗"]),
   ("Huayan", ["華嚴", "华严", "賢首", "法藏", "澄觀"]),
   ("Vinaya", ["律", "毗奈耶", "戒律", "四分律", "五分律", "摩訶僧祇律"]),
   ("Madhyamaka", ["中觀", "中論", "龍樹", "提婆", "三論"]),
   ("Yogacara", ["瑜伽", "唯識", "瑜伽行派", "無著", "世親", "成唯識"]),
   ("Esoteric", ["密", "密教", "陀羅尼", "真言", "壇城", "曼荼羅"]),
   ("Pure Precepts", ["菩薩戒", "梵網經", "心地戒"]),
   ("Pali/Theravada", ["南傳", "巴利", "Theravāda", "尼柯耶", "律藏"]),
   ("Tibetan", ["藏傳", "西藏", "Tibetan", "甘珠爾", "丹珠爾"]),
   ("Commentarial", ["註", "疏", "記", "釋", "解", "論", "鈔"]),
   ("Historical", ["史", "傳", "誌", "錄", "譜"]),
   ("Liturgical", ["儀軌", "法事", "懺", "儀", "課誦"])]

/-- `DYNASTY_PERIODS` from the source, entries in the source's
insertion order (= priority order of the first-match scan). -/
def DYNASTY_PERIODS : List (String × List String) :=
  [("Pre-Tang", ["漢", "魏", "晉", "南北朝", "劉宋", "南齊", "梁", "陳", "北魏", "北齊", "北周", "隋"]),
   ("Tang", ["唐"]),
   ("Song", ["宋", "北宋", "南宋"]),
   ("Yuan", ["元"]),
   ("Ming", ["明"]),
   ("Qing", ["清"]),
   ("Modern", ["民國", "中華民國", "現代"]),
   ("Contemporary", ["當代"])]

/-- `GEOGRAPHIC_ORIGINS` from the source. -/
def GEOGRAPHIC_ORIGINS : List (String × List String) :=
  [("India", ["印度", "天竺", "中天竺", "北天竺", "南天竺", "西天"]),
   ("Central Asia", ["西域", "中亞", "龜茲", "于闐", "高昌"]),
   ("China", ["中國", "漢地", "中土", "大唐", "大宋", "大元", "大明", "大清"]),
   ("Korea", ["高麗", "新羅", "百濟", "朝鮮"]),
   ("Japan", ["日本", "倭"]),
   ("Southeast Asia", ["南海", "扶南", "真臘", "林邑"])]

/-- The text scanned by `classify_tradition`:
`' '.join(titles + [author] + [source]).lower()`. -/
def traditionText (titles : List String) (author source : String) : String :=
  lowerStr (String.intercalate " " (titles ++ [author] ++ [source]))

/-- The labels whose keyword list has a match in `text`
(the set built by `classify_tradition`, listed in table order; the Python
code materialises it as a `set` whose iteration order is unspecified). -/
def matchedTraditions (text : String) : List String :=
  (TRADITION_CLASSIFICATIONS.filter
    (fun e => e.2.any (fun k => strContains text (lowerStr k)))).map Prod.fst

/-- `classify_tradition(titles, author, source)` from the source. -/
def classify_tradition (titles : List String) (author source : String) : List String :=
  if (matchedTraditions (traditionText titles author source)).isEmpty then
    ["General/Unspecified"]
  else
    matchedTraditions (traditionText titles author source)

/-- The text scanned by `classify_period` / `classify_geographic`:
`' '.join([author, source] + titles)`. -/
def periodText (author source : String) (titles : List String) : String :=
  String.intercalate " " ([author, source] ++ titles)

/-- The first-match scan shared by the period and geographic tables:
return the label of the first entry one of whose keywords occurs in
`text`. -/
def findFirstMatch : List (String × List String) → String → Option String
  | [], _ => none
  | e :: rest, text =>
      if e.2.any (fun k => strContains text k) then some e.1
      else findFirstMatch rest text

/-- `classify_period(author, source, titles)` from the source, with the
table scan and the three fallback branches. -/
def classify_period (author source : String) (titles : List String) : String :=
  match findFirstMatch DYNASTY_PERIODS (periodText author source titles) with
  | some p => p
  | none =>
      if (["民國", "中華民國", "現代"] : List String).any
          (fun w => strContains (periodText author source titles) w) then
        "Modern"
      else if (["當代", "現代"] : List String).any
          (fun w => strContains (periodText author source titles) w) then
        "Contemporary"
      else if strContains author "釋" &&
          (["唐", "宋", "元", "明", "清"] : List String).any
            (fun d => strContains (periodText author source titles) d) then
        "Traditional Chinese Buddhism"
      else
        "Unknown Period"

/-- `classify_geographic(author, source, titles)` from the source. -/
def classify_geographic (author source : String) (titles : List String) : String :=
  match findFirstMatch GEOGRAPHIC_ORIGINS (periodText author source titles) with
  | some r => r
  | none => "Unknown Origin"

/-- The leading run of ASCII uppercase letters of `s`:
the text captured by `re.match(r'^([A-Z]+)', s)`, empty when there is no
match. -/
def leadingUpperRun (s : String) : String :=
  String.mk (s.toList.takeWhile (fun c => decide ('A' ≤ c) && decide (c ≤ 'Z')))

/-- The canon-code derivation of `extract_metadata`: from a non-empty
leading uppercase run of the declared `xml:id`, else the first path
segment that is a key of the canon registry (`canon_codes`), else
`none`. -/
def extract_canon_code (xml_id : String) (path_parts : List String)
    (canon_codes : List String) : Option String :=
  let fromId : Option String :=
    if xml_id.isEmpty then none
    else
      let run := leadingUpperRun xml_id
      if run.isEmpty then none else some run
  match fromId with
  | some c => some c
  | none => path_parts.find? (fun p => canon_codes.contains p)

/-- The metadata record built by a successful `extract_metadata`. -/
structure Metadata where
  xml_id : String
  canon_code : Option String
  canon_name : String
  titles : List String
  author : String
  source : String
  file_path : String
deriving DecidableEq

/-- One row of `results['detailed_analysis']`. -/
structure DetailRecord where
  file : String
  canon : Option String
  canon_name : String
  traditions : List String
  period : String
  origin : String
  author : String
  main_title : String
deriving DecidableEq

/-- The per-canon bucket of `results['by_canon']`
(`{'files': [], 'traditions': Counter(), 'periods': Counter(),
'origins': Counter()}`); the counters are total maps defaulting to 0. -/
structure CanonData where
  files : List String
  traditions : String → Nat
  periods : String → Nat
  origins : String → Nat

/-- The `results` dictionary built by `analyze_buddhist_metadata`; the
`defaultdict`s are total maps with the corresponding default value. -/
structure Results where
  by_canon : String → CanonData
  by_tradition : String → List String
  by_period : String → List String
  by_origin : String → List String
  detailed : List DetailRecord

/-- Point update of a total map at one key. -/
def updateFn {α : Type} (m : String → α) (k : String) (f : α → α) : String → α :=
  fun x => if x = k then f (m x) else m x

/-- The empty `results` dictionary, before any file is processed. -/
def initialResults : Results :=
  { by_canon := fun _ => { files := [], traditions := fun _ => 0,
                           periods := fun _ => 0, origins := fun _ => 0 }
    by_tradition := fun _ => []
    by_period := fun _ => []
    by_origin := fun _ => []
    detailed := [] }

/-- Folding one classified document into its canon's bucket
(the `if canon_code:` block of the loop). -/
def foldCanon (cd : CanonData) (m : Metadata) (traditions : List String)
    (period origin : String) : CanonData :=
  { files := cd.files ++ [m.file_path]
    traditions := traditions.foldl (fun f tr => updateFn f tr (fun n => n + 1)) cd.traditions
    periods := updateFn cd.periods period (fun n => n + 1)
    origins := updateFn cd.origins origin (fun n => n + 1) }

/-- The detailed-analysis record appended for one document. -/
def mkDetail (m : Metadata) (traditions : List String)
    (period origin : String) : DetailRecord :=
  { file := m.file_path
    canon := m.canon_code
    canon_name := m.canon_name
    traditions := traditions
    period := period
    origin := origin
    author := m.author
    main_title := m.titles.headD "" }

/-- The body of the `for xml_file in xml_files` loop of
`analyze_buddhist_metadata`, for one extraction outcome: an error record
is skipped (`continue`) and the state is untouched; a metadata record is
classified and folded into the four grouping indices (`by_canon` only
when a canon code is present and non-empty, matching the Python
truthiness test `if canon_code:`) and appended as a detail record. -/
def walkStep (r : Results) (doc : Except String Metadata) : Results :=
  match doc with
  | .error _ => r
  | .ok m =>
      let traditions := classify_tradition m.titles m.author m.source
      let period := classify_period m.author m.source m.titles
      let origin := classify_geographic m.author m.source m.titles
      let r1 : Results :=
        match m.canon_code with
        | some c =>
            if c.isEmpty then r
            else { r with by_canon :=
                     updateFn r.by_canon c (fun cd => foldCanon cd m traditions period origin) }
        | none => r
      { r1 with
        by_tradition :=
          traditions.foldl (fun f tr => updateFn f tr (fun l => l ++ [m.file_path]))
            r1.by_tradition
        by_period := updateFn r1.by_period period (fun l => l ++ [m.file_path])
        by_origin := updateFn r1.by_origin origin (fun l => l ++ [m.file_path])
        detailed := r1.detailed ++ [mkDetail m traditions period origin] }

/-- The aggregation loop of `analyze_buddhist_metadata` over the
per-file extraction outcomes. -/
def analyze_buddhist_metadata (docs : List (Except String Metadata)) : Results :=
  docs.foldl walkStep initialResults

/-- No keyword of any tradition entry occurs in `text`
(after the lowercasing both sides get in `classify_tradition`). -/
def noTraditionKeyword (text : String) : Bool :=
  TRADITION_CLASSIFICATIONS.all
    (fun e => e.2.all (fun k => !(strContains text (lowerStr k))))

/-- The simplified period classifier that only scans the dynasty table
and defaults to "Unknown Period", used to compare `classify_period`
against (the refinement target of the unreachable-fallbacks claim). -/
def classify_period_table_only (author source : String) (titles : List String) : String :=
  (findFirstMatch DYNASTY_PERIODS (periodText author source titles)).getD "Unknown Period"

/-- `tableMatches table text i` holds when the `i`-th table entry has a
keyword occurring in `text`. -/
def tableMatches (table : List (String × List String)) (text : String) (i : Nat) : Bool :=
  match table.get? i with
  | some e => e.2.any (fun k => strContains text k)
  | none => false

/-- A successfully extracted demonstration document with canon code "T". -/
def demoDoc : Metadata :=
  { xml_id := "T0001"
    canon_code := some "T"
    canon_name := "大正新脩大藏經"
    titles := ["六祖壇經"]
    author := "釋宗寶"
    source := "宋"
    file_path := "T0001.xml" }

/-- A successfully extracted demonstration document without a canon
code. -/
def demoDocNoCanon : Metadata :=
  { xml_id := "0001"
    canon_code := none
    canon_name := "Unknown"
    titles := ["六祖壇經"]
    author := "釋宗寶"
    source := "宋"
    file_path := "0001.xml" }

/-- A label produced by the first-match scan is a label of the table. -/
theorem findFirstMatch_mem {table : List (String × List String)} {text p : String}
    (h : findFirstMatch table text = some p) : p ∈ table.map Prod.fst := by
  induction table with
  | nil => simp [findFirstMatch] at h
  | cons e rest ih =>
      unfold findFirstMatch at h
      by_cases hc : e.2.any (fun k => strContains text k) = true
      · simp [hc] at h
        simp [h]
      · simp [hc] at h
        simp [ih h]

/-- When the first-match scan fails, no table entry has a matching
keyword. -/
theorem findFirstMatch_none {table : List (String × List String)} {text : String}
    (h : findFirstMatch table text = none) :
    ∀ e ∈ table, e.2.any (fun k => strContains text k) = false := by
  induction table with
  | nil => simp
  | cons e rest ih =>
      intro x hx
      unfold findFirstMatch at h
      by_cases hc : e.2.any (fun k => strContains text k) = true
      · simp [hc] at h
      · rcases List.mem_cons.mp hx with rfl | hx'
        · simpa using hc
        · exact ih (by simpa [hc] using h) x hx'

/-- The first-match scan returns the label of the least-index matching
entry. -/
theorem findFirstMatch_of_min :
    ∀ (table : List (String × List String)) (text : String) (i : Nat)
      (lab : String) (kws : List String),
      table.get? i = some (lab, kws) →
      tableMatches table text i = true →
      (∀ k, k < i → tableMatches table text k = false) →
      findFirstMatch table text = some lab := by
  intro table
  induction table with
  | nil =>
      intro text i lab kws hget _ _
      simp at hget
  | cons e rest ih =>
      intro text i lab kws hget hmatch hmin
      cases i with
      | zero =>
          have he : e = (lab, kws) := by simpa using hget
          subst he
          have hc : (lab, kws).2.any (fun k => strContains text k) = true := by
            simpa [tableMatches] using hmatch
          simp [findFirstMatch, hc]
      | succ n =>
          have h0 : tableMatches (e :: rest) text 0 = false := hmin 0 (Nat.succ_pos n)
          have he : e.2.any (fun k => strContains text k) = false := by
            simpa [tableMatches] using h0
          have hget' : rest.get? n = some (lab, kws) := by simpa using hget
          have hmatch' : tableMatches rest text n = true := by
            simpa [tableMatches] using hmatch
          have hmin' : ∀ k, k < n → tableMatches rest text k = false := by
            intro k hk
            have := hmin (k + 1) (Nat.succ_lt_succ hk)
            simpa [tableMatches] using this
          simpa [findFirstMatch, he] using ih text n lab kws hget' hmatch' hmin'

/-- The matched-traditions list is empty exactly when no tradition
keyword occurs in the text. -/
theorem matchedTraditions_eq_nil_iff (text : String) :
    matchedTraditions text = [] ↔ noTraditionKeyword text = true := by
  unfold matchedTraditions noTraditionKeyword
  simp [List.map_eq_nil_iff, List.filter_eq_nil_iff, List.all_eq_true, List.any_eq_true]

/-- C1 counterexample: for the document with titles ["六祖壇經"], author
"釋宗寶" and source "宋" (a source string containing "宋"),
`classify_tradition` does not contain "Chan/Zen" — the title 六祖壇經
contains no Chan/Zen keyword, so the claimed result set {"Chan/Zen"} is
wrong. -/
theorem platform_sutra_not_chan :
    "Chan/Zen" ∉ classify_tradition ["六祖壇經"] "釋宗寶" "宋" := by
  decide

/-- C1 amended: for titles ["六祖壇經"], author "釋宗寶", source "宋",
`classify_tradition` returns exactly {"Commentarial"} (the author marker
"釋" is a Commentarial keyword), `classify_period` returns "Song" (the
table match on "宋" wins before any fallback) and `classify_geographic`
returns "Unknown Origin". -/
theorem platform_sutra_classification :
    classify_tradition ["六祖壇經"] "釋宗寶" "宋" = ["Commentarial"] ∧
    classify_period "釋宗寶" "宋" ["六祖壇經"] = "Song" ∧
    classify_geographic "釋宗寶" "宋" ["六祖壇經"] = "Unknown Origin" := by
  decide

/-- C2: for a registry containing the code "T", a document whose declared
id is "T0001_foo" yields canon code "T" from the leading uppercase run of
the id, whatever the path segments are; and whenever the id has no leading
uppercase run, the code falls back to scanning the path segments against
the registry's known codes, taking the first that matches. -/
theorem canon_code_derivation :
    (∀ (parts registry : List String), "T" ∈ registry →
        extract_canon_code "T0001_foo" parts registry = some "T") ∧
    (∀ (xml_id : String) (parts registry : List String), leadingUpperRun xml_id = "" →
        extract_canon_code xml_id parts registry =
          parts.find? (fun p => registry.contains p)) := by
  constructor
  · intro parts registry _
    rfl
  · intro xml_id parts registry h
    unfold extract_canon_code
    by_cases hid : xml_id.isEmpty
    · simp [hid]
    · simp [hid, h]
      rfl

/-- C2 witness: the round trip at registry ["T"] and id "T0001_foo", and
the path fallback at an id without a leading uppercase run. -/
theorem canon_code_derivation_witness :
    extract_canon_code "T0001_foo" ["xml-p5"] ["T"] = some "T" ∧
    extract_canon_code "0001" ["xml-p5", "T", "foo"] ["T"] = some "T" := by
  constructor
  · exact canon_code_derivation.1 ["xml-p5"] ["T"] (by decide)
  · have h := canon_code_derivation.2 "0001" ["xml-p5", "T", "foo"] ["T"] (by decide)
    rw [h]
    decide

/-- C6: whenever no tradition keyword occurs in the concatenated
lowercased text of titles, author and source, `classify_tradition`
returns exactly ["General/Unspecified"]. -/
theorem no_keyword_unspecified (titles : List String) (author source : String)
    (h : noTraditionKeyword (traditionText titles author source) = true) :
    classify_tradition titles author source = ["General/Unspecified"] := by
  have h2 : matchedTraditions (traditionText titles author source) = [] :=
    (matchedTraditions_eq_nil_iff _).mpr h
  simp [classify_tradition, h2]

/-- C6 witness: the all-empty document matches no tradition keyword and
classifies as ["General/Unspecified"]. -/
theorem no_keyword_unspecified_witness :
    noTraditionKeyword (traditionText [] "" "") = true ∧
    classify_tradition [] "" "" = ["General/Unspecified"] :=
  ⟨by decide, no_keyword_unspecified [] "" "" (by decide)⟩

/-- C8 counterexample: the tradition table does not have 15 entries with
3 to 8 keywords each — it has 14 entries, and the Chan/Zen entry lists 9
keyword variants. -/
theorem tradition_table_shape_fails :
    ¬ (TRADITION_CLASSIFICATIONS.length = 15 ∧
        ∀ e ∈ TRADITION_CLASSIFICATIONS, 3 ≤ e.2.length ∧ e.2.length ≤ 8) := by
  decide

/-- C8 amended: the tradition table has exactly 14 entries, each with at
least 3 and at most 9 keyword variants. -/
theorem tradition_table_shape :
    TRADITION_CLASSIFICATIONS.length = 14 ∧
    ∀ e ∈ TRADITION_CLASSIFICATIONS, 3 ≤ e.2.length ∧ e.2.length ≤ 9 := by
  decide

/-- A matched tradition label is a label of the tradition table. -/
theorem matchedTraditions_subset_labels {text lab : String}
    (h : lab ∈ matchedTraditions text) :
    lab ∈ TRADITION_CLASSIFICATIONS.map Prod.fst := by
  unfold matchedTraditions at h
  rcases List.mem_map.mp h with ⟨e, he, heq⟩
  exact List.mem_map.mpr ⟨e, (List.mem_filter.mp he).1, heq⟩

/-- C10: the sentinel "General/Unspecified" is in the tradition result
exactly when no tradition keyword matched the concatenated text, and the
result is then the singleton ["General/Unspecified"]; the sentinel never
co-occurs with a real tradition label. -/
theorem unspecified_sentinel_iff_no_match (titles : List String) (author source : String) :
    ("General/Unspecified" ∈ classify_tradition titles author source ↔
        noTraditionKeyword (traditionText titles author source) = true) ∧
    (classify_tradition titles author source = ["General/Unspecified"] ∨
        "General/Unspecified" ∉ classify_tradition titles author source) := by
  have hnotlabel : "General/Unspecified" ∉ TRADITION_CLASSIFICATIONS.map Prod.fst := by
    decide
  by_cases hnil : matchedTraditions (traditionText titles author source) = []
  · have hcl : classify_tradition titles author source = ["General/Unspecified"] := by
      simp [classify_tradition, hnil]
    refine ⟨?_, Or.inl hcl⟩
    rw [hcl]
    simp [(matchedTraditions_eq_nil_iff _).mp hnil]
  · have hcl : classify_tradition titles author source =
        matchedTraditions (traditionText titles author source) := by
      simp [classify_tradition, hnil]
    have hnomem : "General/Unspecified" ∉ classify_tradition titles author source := by
      rw [hcl]
      intro hmem
      exact hnotlabel (matchedTraditions_subset_labels hmem)
    refine ⟨?_, Or.inr hnomem⟩
    constructor
    · intro hmem
      exact absurd hmem hnomem
    · intro hkw
      exact absurd ((matchedTraditions_eq_nil_iff _).mpr hkw) hnil

/-- C7: for every input, `classify_period` returns exactly one label
drawn from the period table labels and the fixed fallback labels, and
`classify_geographic` returns exactly one label drawn from the
geographic table labels and its sentinel — both functions are total and
single-valued, degrading to "Unknown Period" / "Unknown Origin". -/
theorem classifiers_single_label (author source : String) (titles : List String) :
    classify_period author source titles ∈
      (DYNASTY_PERIODS.map Prod.fst ++
        ["Modern", "Contemporary", "Traditional Chinese Buddhism", "Unknown Period"]) ∧
    classify_geographic author source titles ∈
      (GEOGRAPHIC_ORIGINS.map Prod.fst ++ ["Unknown Origin"]) := by
  constructor
  · unfold classify_period
    cases h : findFirstMatch DYNASTY_PERIODS (periodText author source titles) with
    | some p =>
        simp only []
        exact List.mem_append_left _ (findFirstMatch_mem h)
    | none =>
        simp only []
        split_ifs <;> decide
  · unfold classify_geographic
    cases h : findFirstMatch GEOGRAPHIC_ORIGINS (periodText author source titles) with
    | some p =>
        simp only []
        exact List.mem_append_left _ (findFirstMatch_mem h)
    | none =>
        decide

/-- C9: `classify_period` equals the simplified classifier that only
scans the dynasty table and defaults to "Unknown Period": every keyword
the three fallback branches test belongs to some dynasty-table entry
matched against the same text, so the fallbacks are unreachable; in
particular the "Traditional Chinese Buddhism" label is never produced. -/
theorem classify_period_eq_table_only (author source : String) (titles : List String) :
    classify_period author source titles = classify_period_table_only author source titles ∧
    classify_period author source titles ≠ "Traditional Chinese Buddhism" := by
  cases h : findFirstMatch DYNASTY_PERIODS (periodText author source titles) with
  | some p =>
      have e1 : classify_period author source titles = p := by
        simp [classify_period, h]
      have e2 : classify_period_table_only author source titles = p := by
        simp [classify_period_table_only, h]
      have hp : p ∈ DYNASTY_PERIODS.map Prod.fst := findFirstMatch_mem h
      have hne : ∀ q ∈ DYNASTY_PERIODS.map Prod.fst, q ≠ "Traditional Chinese Buddhism" := by
        decide
      exact ⟨e1.trans e2.symm, e1 ▸ hne p hp⟩
  | none =>
      have hAll := findFirstMatch_none h
      have hTang := hAll ("Tang", ["唐"]) (by decide)
      have hSong := hAll ("Song", ["宋", "北宋", "南宋"]) (by decide)
      have hYuan := hAll ("Yuan", ["元"]) (by decide)
      have hMing := hAll ("Ming", ["明"]) (by decide)
      have hQing := hAll ("Qing", ["清"]) (by decide)
      have hModern := hAll ("Modern", ["民國", "中華民國", "現代"]) (by decide)
      have hContemporary := hAll ("Contemporary", ["當代"]) (by decide)
      simp only [List.any_eq_false] at hTang hSong hYuan hMing hQing hModern hContemporary
      have c1 : (["民國", "中華民國", "現代"] : List String).any
          (fun w => strContains (periodText author source titles) w) = false := by
        simp only [List.any_eq_false]
        exact hModern
      have c2 : (["當代", "現代"] : List String).any
          (fun w => strContains (periodText author source titles) w) = false := by
        simp only [List.any_eq_false]
        intro w hw
        rcases List.mem_cons.mp hw with rfl | hw'
        · exact hContemporary _ (by decide)
        · rcases List.mem_singleton.mp hw' with rfl
          exact hModern _ (by decide)
      have c3 : (["唐", "宋", "元", "明", "清"] : List String).any
          (fun d => strContains (periodText author source titles) d) = false := by
        simp only [List.any_eq_false]
        intro d hd
        fin_cases hd
        · exact hTang _ (by decide)
        · exact hSong _ (by decide)
        · exact hYuan _ (by decide)
        · exact hMing _ (by decide)
        · exact hQing _ (by decide)
      constructor
      · simp [classify_period, classify_period_table_only, h, c1, c2, c3]
      · simp [classify_period, h, c1, c2, c3]

/-- C3: for any input whose text matches the keyword lists of two
distinct table entries `i < j` (with `i` the least matching index),
`classify_period` returns the label of entry `i` — table order is the
priority order — and the same first-match-wins policy holds for
`classify_geographic` over its table. -/
theorem table_order_precedence :
    (∀ (author source : String) (titles : List String) (i j : Nat)
        (lab : String) (kws : List String), i < j →
        DYNASTY_PERIODS.get? i = some (lab, kws) →
        tableMatches DYNASTY_PERIODS (periodText author source titles) i = true →
        tableMatches DYNASTY_PERIODS (periodText author source titles) j = true →
        (∀ k, k < i → tableMatches DYNASTY_PERIODS (periodText author source titles) k = false) →
        classify_period author source titles = lab) ∧
    (∀ (author source : String) (titles : List String) (i j : Nat)
        (lab : String) (kws : List String), i < j →
        GEOGRAPHIC_ORIGINS.get? i = some (lab, kws) →
        tableMatches GEOGRAPHIC_ORIGINS (periodText author source titles) i = true →
        tableMatches GEOGRAPHIC_ORIGINS (periodText author source titles) j = true →
        (∀ k, k < i → tableMatches GEOGRAPHIC_ORIGINS (periodText author source titles) k = false) →
        classify_geographic author source titles = lab) := by
  constructor
  · intro author source titles i j lab kws _ hget hi _ hmin
    have hf := findFirstMatch_of_min DYNASTY_PERIODS
      (periodText author source titles) i lab kws hget hi hmin
    simp [classify_period, hf]
  · intro author source titles i j lab kws _ hget hi _ hmin
    have hf := findFirstMatch_of_min GEOGRAPHIC_ORIGINS
      (periodText author source titles) i lab kws hget hi hmin
    simp [classify_geographic, hf]

/-- C3 witness: "唐宋" matches both the Tang entry (index 1) and the Song
entry (index 2), and classifies as "Tang"; "天竺高麗" matches both the
India entry (index 0) and the Korea entry (index 3), and classifies as
"India". -/
theorem table_order_precedence_witness :
    classify_period "唐宋" "" [] = "Tang" ∧
    classify_geographic "天竺高麗" "" [] = "India" := by
  constructor
  · refine table_order_precedence.1 "唐宋" "" [] 1 2 "Tang" ["唐"]
      (by decide) (by decide) (by decide) (by decide) ?_
    intro k hk
    have hk0 : k = 0 := Nat.lt_one_iff.mp hk
    subst hk0
    decide
  · refine table_order_precedence.2 "天竺高麗" "" [] 0 3 "India"
      ["印度", "天竺", "中天竺", "北天竺", "南天竺", "西天"]
      (by decide) (by decide) (by decide) (by decide) ?_
    intro k hk
    exact absurd hk (Nat.not_lt_zero k)

/-- C4 counterexample: processing a malformed document leaves the
`results` state completely unchanged — in particular no error or skip
counter is incremented anywhere, contrary to the claim that the walker
increments one (the loop body is `if 'error' in metadata: continue`). -/
theorem malformed_doc_leaves_results_unchanged :
    walkStep initialResults (Except.error "not well-formed (invalid token)") =
      initialResults := rfl

/-- C4 amended: a malformed document (an `ExtractionError` outcome) is
skipped by the walker with no state change at all: the aggregate result
of a run containing it equals the aggregate result of the run without
it, so its path appears in no grouping index and in no detail record;
no error counter exists or is incremented. -/
theorem analyze_skips_malformed (pre post : List (Except String Metadata)) (e : String) :
    analyze_buddhist_metadata (pre ++ Except.error e :: post) =
      analyze_buddhist_metadata (pre ++ post) := by
  unfold analyze_buddhist_metadata
  rw [List.foldl_append, List.foldl_append, List.foldl_cons]
  rfl

/-- Appending into a grouping map preserves membership of `path` at any
key. -/
theorem foldl_updateFn_preserves (path : String) :
    ∀ (l : List String) (f : String → List String) (x : String),
      path ∈ f x →
      path ∈ (l.foldl (fun g tr => updateFn g tr (fun ls => ls ++ [path])) f) x := by
  intro l
  induction l with
  | nil =>
      intro f x h
      simpa using h
  | cons a t ih =>
      intro f x h
      apply ih
      unfold updateFn
      by_cases hx : x = a
      · simp only [hx, if_pos rfl]
        exact List.mem_append_left _ (hx ▸ h)
      · simpa [hx] using h

/-- After folding the keys of `l` into a grouping map, `path` is present
at every key of `l`. -/
theorem foldl_updateFn_mem (path : String) :
    ∀ (l : List String) (f : String → List String) (x : String),
      x ∈ l →
      path ∈ (l.foldl (fun g tr => updateFn g tr (fun ls => ls ++ [path])) f) x := by
  intro l
  induction l with
  | nil =>
      intro f x h
      simp at h
  | cons a t ih =>
      intro f x hx
      rcases List.mem_cons.mp hx with rfl | hx'
      · rw [List.foldl_cons]
        apply foldl_updateFn_preserves
        simp [updateFn]
      · rw [List.foldl_cons]
        exact ih _ x hx'

/-- The four non-canon fields of the state after processing a successful
document, for any canon-code shape. -/
theorem walkStep_ok_proj (r : Results) (m : Metadata) :
    (walkStep r (Except.ok m)).by_tradition =
      (classify_tradition m.titles m.author m.source).foldl
        (fun g tr => updateFn g tr (fun ls => ls ++ [m.file_path])) r.by_tradition ∧
    (walkStep r (Except.ok m)).by_period =
      updateFn r.by_period (classify_period m.author m.source m.titles)
        (fun l => l ++ [m.file_path]) ∧
    (walkStep r (Except.ok m)).by_origin =
      updateFn r.by_origin (classify_geographic m.author m.source m.titles)
        (fun l => l ++ [m.file_path]) ∧
    (walkStep r (Except.ok m)).detailed =
      r.detailed ++ [mkDetail m (classify_tradition m.titles m.author m.source)
        (classify_period m.author m.source m.titles)
        (classify_geographic m.author m.source m.titles)] := by
  cases hm : m.canon_code with
  | none =>
      refine ⟨?_, ?_, ?_, ?_⟩ <;> simp [walkStep, hm]
  | some c =>
      by_cases hce : c.isEmpty = true <;> refine ⟨?_, ?_, ?_, ?_⟩ <;> simp [walkStep, hm, hce]

/-- C5 amended: for every document whose extraction succeeds, the walker
adds its path to the by-tradition index under every matched tradition,
to the by-period index under its period label, to the by-origin index
under its origin label, and appends a per-document detail record;
the by-canon index receives it only when a (non-empty) canon code was
derived, and is left unchanged when no canon code is present. -/
theorem ok_doc_folded (r : Results) (m : Metadata) :
    (∀ tr ∈ classify_tradition m.titles m.author m.source,
        m.file_path ∈ (walkStep r (Except.ok m)).by_tradition tr) ∧
    m.file_path ∈ (walkStep r (Except.ok m)).by_period
      (classify_period m.author m.source m.titles) ∧
    m.file_path ∈ (walkStep r (Except.ok m)).by_origin
      (classify_geographic m.author m.source m.titles) ∧
    (walkStep r (Except.ok m)).detailed =
      r.detailed ++ [mkDetail m (classify_tradition m.titles m.author m.source)
        (classify_period m.author m.source m.titles)
        (classify_geographic m.author m.source m.titles)] ∧
    (∀ c, m.canon_code = some c → c.isEmpty = false →
        m.file_path ∈ ((walkStep r (Except.ok m)).by_canon c).files) ∧
    (m.canon_code = none → (walkStep r (Except.ok m)).by_canon = r.by_canon) := by
  obtain ⟨hByTr, hByP, hByO, hDet⟩ := walkStep_ok_proj r m
  refine ⟨?_, ?_, ?_, hDet, ?_, ?_⟩
  · intro tr htr
    rw [hByTr]
    exact foldl_updateFn_mem m.file_path _ _ tr htr
  · rw [hByP]
    simp [updateFn]
  · rw [hByO]
    simp [updateFn]
  · intro c hc hce
    have hcanon : (walkStep r (Except.ok m)).by_canon =
        updateFn r.by_canon c
          (fun cd => foldCanon cd m (classify_tradition m.titles m.author m.source)
            (classify_period m.author m.source m.titles)
            (classify_geographic m.author m.source m.titles)) := by
      simp [walkStep, hc, hce]
    rw [hcanon]
    simp [updateFn, foldCanon]
  · intro hc
    simp [walkStep, hc]

/-- C5 witness: the demonstration document lands in all four indices and
the detail list, and a canon-less document leaves the by-canon index
unchanged. -/
theorem ok_doc_folded_witness :
    "T0001.xml" ∈ ((walkStep initialResults (Except.ok demoDoc)).by_canon "T").files ∧
    "T0001.xml" ∈ (walkStep initialResults (Except.ok demoDoc)).by_tradition "Commentarial" ∧
    "T0001.xml" ∈ (walkStep initialResults (Except.ok demoDoc)).by_period "Song" ∧
    "T0001.xml" ∈ (walkStep initialResults (Except.ok demoDoc)).by_origin "Unknown Origin" ∧
    (walkStep initialResults (Except.ok demoDocNoCanon)).by_canon = initialResults.by_canon := by
  have h := ok_doc_folded initialResults demoDoc
  have h2 := ok_doc_folded initialResults demoDocNoCanon
  refine ⟨h.2.2.2.2.1 "T" rfl rfl, h.1 "Commentarial" (by decide), ?_, ?_, h2.2.2.2.2.2 rfl⟩
  · have e : classify_period demoDoc.author demoDoc.source demoDoc.titles = "Song" := by decide
    exact e ▸ h.2.1
  · have e : classify_geographic demoDoc.author demoDoc.source demoDoc.titles =
        "Unknown Origin" := by decide
    exact e ▸ h.2.2.1

/-- C5 counterexample: a document whose extraction succeeds but whose
canon code is absent is appended to the detail list yet folded into only
three grouping indices — the by-canon index is left exactly as it was,
refuting "folds into all four grouping indices" for every successful
document. -/
theorem ok_doc_without_canon_skips_by_canon :
    (walkStep initialResults (Except.ok demoDocNoCanon)).by_canon = initialResults.by_canon ∧
    (walkStep initialResults (Except.ok demoDocNoCanon)).detailed ≠ [] := by
  constructor
  · rfl
  · decide
